import Mathlib

/-!
# DNS latency sampler: a Lean model of `dns_application.cpp`

The development follows the source file top to bottom:

* `DomainNameQuery` : the per-domain running aggregate (`sum_`, `sumsq_`, `ntimes`,
  `last_time_`), with `init`, `get_query_domain` and `query`;
* `MultithreadQuery` : the mutex-protected work list drained by a fixed set of threads, each
  locked empty-check / front / pop_front being one atomic step of a scheduler;
* `MysqlQuery.queryAll` : one batch followed by the insert / update decision per domain.

Machine integers are natural numbers reduced modulo `2^32` (`uint32_t`) or `2^64`
(`uint64_t`) at every place where the C++ code stores into a field of that width.  The
`long` arithmetic on clock readings is carried out in `Int` (a 64-bit `long` does not
overflow on differences of clock readings of the same clock); C++ division truncates towards
zero and is `Int.tdiv`.  `uint32_t` is `unsigned int`, so a product of two `uint32_t` values
is computed modulo `2^32`.

What the outside world does (the resolver, the clocks, `random()`, the scheduler) enters
the functions as arguments.
-/

namespace DnsApp

/-! ## Machine integers -/

/-- Number of values of a `uint32_t`. -/
def U32 : Nat := 4294967296

/-- Number of values of a `uint64_t`. -/
def U64 : Nat := 18446744073709551616

/-- Conversion of a `long` value to `uint32_t` (reduction modulo `2^32`). -/
def toU32 (x : Int) : Nat := (x % 4294967296).toNat

/-! ## Clock readings -/

/-- The C `struct timespec`: whole seconds and nanoseconds. -/
structure timespec where
  tv_sec : Int
  tv_nsec : Int
  deriving DecidableEq, Repr

/-! ## Single-precision arithmetic

`avg()` and `stddev()` compute in `float`.  The operations they use are kept abstract: every
statement below holds for any interpretation of them. -/

/-- The `float` operations used by `avg()` and `stddev()`. -/
structure FloatOps (F : Type) where
  ofU32 : Nat → F
  ofU64 : Nat → F
  div : F → F → F
  sub : F → F → F
  mul : F → F → F
  sqrtf : F → F

/-- A `float` expression, written out rather than evaluated. -/
inductive FExpr where
  | ofU32 (n : Nat) : FExpr
  | ofU64 (n : Nat) : FExpr
  | div (a b : FExpr) : FExpr
  | sub (a b : FExpr) : FExpr
  | mul (a b : FExpr) : FExpr
  | sqrtf (a : FExpr) : FExpr
  deriving DecidableEq, Repr

/-- The interpretation of the `float` operations that only records the expression. -/
def FExpr.ops : FloatOps FExpr :=
  { ofU32 := FExpr.ofU32, ofU64 := FExpr.ofU64, div := FExpr.div, sub := FExpr.sub,
    mul := FExpr.mul, sqrtf := FExpr.sqrtf }

/-! ## DomainNameQuery -/

/-- The data members of `class DomainNameQuery` that carry the statistics (the connection
reference and the resolver handle hold no statistics and are left out). -/
structure DomainNameQuery where
  domain_ : String
  sum_ : Nat
  sumsq_ : Nat
  ntimes : Nat
  last_time_ : Int
  deriving DecidableEq, Repr

/-- A row of the result table, restricted to the columns read by `init`. -/
structure Row where
  sum_in_ms : Nat
  sum_sqrt_in_ms : Nat
  num_queries : Nat
  deriving DecidableEq, Repr

/-- What the outside world answers to one call of `query`:
* `malformed` : `ldns_dname_new_frm_str` returned `NULL`;
* `no_packet` : `ldns_resolver_query` returned `NULL`;
* `packet stop now` : a packet came back, `stop` is the second clock reading and `now` is the
  value of `time(NULL)`. -/
inductive Probe where
  | malformed : Probe
  | no_packet : Probe
  | packet (stop : timespec) (now : Int) : Probe
  deriving DecidableEq, Repr

namespace DomainNameQuery

/-- The constructor: all counters zero. -/
def new (domain : String) : DomainNameQuery :=
  { domain_ := domain, sum_ := 0, sumsq_ := 0, ntimes := 0, last_time_ := 0 }

/-- The method `init(row)`: the three counters are loaded from the row, each stored into its
field width; `last_time_` is not touched. -/
def init (d : DomainNameQuery) (row : Row) : DomainNameQuery :=
  { d with
    sum_ := row.sum_in_ms % U32,
    sumsq_ := row.sum_sqrt_in_ms % U64,
    ntimes := row.num_queries % U32 }

def numberoftimes (d : DomainNameQuery) : Nat := d.ntimes

def sum (d : DomainNameQuery) : Nat := d.sum_

def sumsq (d : DomainNameQuery) : Nat := d.sumsq_

def domain (d : DomainNameQuery) : String := d.domain_

def last_time (d : DomainNameQuery) : Int := d.last_time_

/-- The method `avg()`: `((float)sum_) / ntimes`. -/
def avg {F : Type} (fl : FloatOps F) (d : DomainNameQuery) : F :=
  fl.div (fl.ofU32 d.sum_) (fl.ofU32 d.ntimes)

/-- The method `stddev()`: `sqrtf((float(sumsq_) / ntimes) - (mean * mean))`. -/
def stddev {F : Type} (fl : FloatOps F) (d : DomainNameQuery) : F :=
  fl.sqrtf (fl.sub (fl.div (fl.ofU64 d.sumsq_) (fl.ofU32 d.ntimes))
    (fl.mul (d.avg fl) (d.avg fl)))

/-- The method `get_query_domain`: eight characters `random() % 26 + 'A'`, then `'.'`, then
the domain.  `random i` is the value returned by the `i`-th call of `random()`. -/
def get_query_domain (d : DomainNameQuery) (random : Nat → Nat) : String :=
  String.mk ((List.range 8).map (fun i => Char.ofNat (random i % 26 + 65)) ++ ['.'])
    ++ d.domain_

/-- The expression assigned to `uint32_t ms` in `query`:
`(end.tv_sec - start.tv_sec) * 1000 + (end.tv_nsec - start.tv_nsec) / 1000000`,
evaluated in `long` and converted to `uint32_t`. -/
def elapsed_ms (start stop : timespec) : Nat :=
  toU32 ((stop.tv_sec - start.tv_sec) * 1000
          + Int.tdiv (stop.tv_nsec - start.tv_nsec) 1000000)

/-- The statements of the `if (p != NULL)` branch of `query`, for a given `ms`:
`sum_ += ms; sumsq_ += ms * ms; ++ntimes; last_time_ = time(NULL);`.
The product `ms * ms` has both operands of type `uint32_t`, so it is computed in 32 bits
before it is widened and added to the 64-bit field. -/
def record (d : DomainNameQuery) (ms : Nat) (now : Int) : DomainNameQuery :=
  { d with
    sum_ := (d.sum_ + ms) % U32,
    sumsq_ := (d.sumsq_ + (ms * ms) % U32) % U64,
    ntimes := (d.ntimes + 1) % U32,
    last_time_ := now }

/-- The method `query`.  `start` is the first clock reading. -/
def query (d : DomainNameQuery) (start : timespec) : Probe → DomainNameQuery
  | Probe.malformed => d
  | Probe.no_packet => d
  | Probe.packet stop now => d.record (elapsed_ms start stop) now

/-- Whether the probe brought a packet back (the only case in which `query` records a
sample). -/
def succeeded : Probe → Bool
  | Probe.packet _ _ => true
  | _ => false

/-- Repeated calls of `query` on one object, one per entry of `calls`; each entry is the
first clock reading and the answer of the outside world. -/
def queries (d : DomainNameQuery) (calls : List (timespec × Probe)) : DomainNameQuery :=
  calls.foldl (fun acc c => acc.query c.1 c.2) d

end DomainNameQuery

/-! ## MultithreadQuery

The work list `domains_`, the threads and the mutex.  The body of the `while (true)` loop of
`run()` up to the end of the locked block is one atomic step: either the list is empty and
the thread returns, or the thread takes the front element and removes it. -/

/-- The state of a `MultithreadQuery` object: the work list, one flag per thread telling
whether its `run()` is still executing, and the trace of `(thread, element)` pops, oldest
first. -/
structure MultithreadQuery (α : Type) where
  domains_ : List α
  running : List Bool
  popped : List (Nat × α)

namespace MultithreadQuery

variable {α : Type}

/-- The constructor: the list is copied and `threads` threads are started (none if
`threads` is not positive). -/
def new (domains : List α) (threads : Int) : MultithreadQuery α :=
  { domains_ := domains, running := List.replicate threads.toNat true, popped := [] }

/-- One locked block of `run()` executed by thread `i`.  A thread that has returned, or that
does not exist, does nothing. -/
def run_step (i : Nat) (s : MultithreadQuery α) : MultithreadQuery α :=
  if s.running.getD i false = true then
    match s.domains_ with
    | [] => { s with running := s.running.set i false }
    | d :: rest => { s with domains_ := rest, popped := s.popped ++ [(i, d)] }
  else s

/-- An interleaving: the threads take their locked blocks in the order given. -/
def exec (schedule : List Nat) (s : MultithreadQuery α) : MultithreadQuery α :=
  schedule.foldl (fun acc i => run_step i acc) s

/-- As long as the list is not empty no thread has returned. -/
def AllRunningOrEmpty (s : MultithreadQuery α) : Prop :=
  (∀ b ∈ s.running, b = true) ∨ s.domains_ = []

/-- Every thread has returned, which is what the destructor waits for. -/
def joined (s : MultithreadQuery α) : Bool :=
  s.running.all (fun b => !b)

/-- The objects after the threads ran under `schedule`, in list order: `query()` has been
called on every popped object by the thread that popped it, and the objects still in the list
are untouched.  A job is an object together with what its probe meets in this batch. -/
def objects_after (threads : Int) (schedule : List Nat)
    (jobs : List (DomainNameQuery × timespec × Probe)) : List DomainNameQuery :=
  (exec schedule (new jobs threads)).popped.map (fun p => p.2.1.query p.2.2.1 p.2.2.2)
    ++ (exec schedule (new jobs threads)).domains_.map (fun j => j.1)

/-- The net effect of constructing and destroying a `MultithreadQuery` on the objects in the
list: with at least one thread every object has `query()` called on it once (each object is
popped once, by one thread, and `query()` touches that object only); with no thread nothing
is called.  A job is an object together with what its probe meets in this batch. -/
def batch (threads : Int) (jobs : List (DomainNameQuery × timespec × Probe)) :
    List DomainNameQuery :=
  if 0 < threads then jobs.map (fun j => j.1.query j.2.1 j.2.2)
  else jobs.map (fun j => j.1)

end MultithreadQuery

/-! ## MysqlQuery -/

/-- A value streamed into a query. -/
inductive SqlValue (F : Type) where
  | quoted (s : String) : SqlValue F
  | float (x : F) : SqlValue F
  | u32 (n : Nat) : SqlValue F
  | u64 (n : Nat) : SqlValue F
  deriving DecidableEq, Repr

/-- The statement handed to `query.execute()`.
* `update t cols name` is `update t set c1=v1 ,c2=v2 ... where name=name`;
* `insert t vals` is `insert into t values(v1,v2,...)`, positional in the column order of
  the table (`name, avg_in_ms, stddev_in_ms, sum_in_ms, sum_sqrt_in_ms, num_queries,
  first_ts, last_ts`);
* `blank` is a query into which nothing was streamed. -/
inductive Stmt (F : Type) where
  | update (table : String) (cols : List (String × SqlValue F)) (name : SqlValue F) : Stmt F
  | insert (table : String) (vals : List (SqlValue F)) : Stmt F
  | blank : Stmt F
  deriving DecidableEq, Repr

/-- The columns a statement assigns: those named in the `set` clause of an update, all
columns of the table for an insert (the `values(...)` list is positional in the column order
of the `create table` statement). -/
def Stmt.assigned {F : Type} : Stmt F → List String
  | Stmt.update _ cols _ => cols.map Prod.fst
  | Stmt.insert _ _ =>
      ["name", "avg_in_ms", "stddev_in_ms", "sum_in_ms", "sum_sqrt_in_ms", "num_queries",
       "first_ts", "last_ts"]
  | Stmt.blank => []

namespace MysqlQuery

variable {F : Type}

/-- The body of the `for (auto d : domains_)` loop of `queryAll`: `none` when the loop
continues without executing anything, otherwise the executed statement.  `timebuf t` is the
local time `t` formatted by `strftime` with `"%Y-%m-%d %T"`. -/
def statement (fl : FloatOps F) (timebuf : Int → String) (table : String)
    (d : DomainNameQuery) : Option (Stmt F) :=
  if d.numberoftimes = 0 then none
  else
    some
      (if d.numberoftimes > 1 then
        Stmt.update table
          [("avg_in_ms", SqlValue.float (d.avg fl)),
           ("stddev_in_ms", SqlValue.float (d.stddev fl)),
           ("sum_in_ms", SqlValue.u32 d.sum),
           ("sum_sqrt_in_ms", SqlValue.u64 d.sumsq),
           ("num_queries", SqlValue.u32 d.numberoftimes),
           ("last_ts", SqlValue.quoted (timebuf d.last_time))]
          (SqlValue.quoted d.domain)
      else if d.numberoftimes = 1 then
        Stmt.insert table
          [SqlValue.quoted d.domain,
           SqlValue.float (d.avg fl),
           SqlValue.float (d.stddev fl),
           SqlValue.u32 d.sum,
           SqlValue.u64 d.sumsq,
           SqlValue.u32 d.numberoftimes,
           SqlValue.quoted (timebuf d.last_time),
           SqlValue.quoted (timebuf d.last_time)]
      else Stmt.blank)

/-- The method `queryAll(parallel)`: the batch, then the loop over the objects.  Returns the
objects after the batch and the statements executed, in order. -/
def queryAll (fl : FloatOps F) (timebuf : Int → String) (table : String) (parallel : Int)
    (jobs : List (DomainNameQuery × timespec × Probe)) :
    List DomainNameQuery × List (Stmt F) :=
  let domains := MultithreadQuery.batch parallel jobs
  (domains, domains.filterMap (statement fl timebuf table))

end MysqlQuery

/-- A stand-in for the time formatting in closed examples: the number of seconds since the
epoch in decimal. -/
def seconds_text (t : Int) : String := toString t

/-! ## Reference quantities -/

/-- Elapsed time between two clock readings in nanoseconds. -/
def elapsed_ns (start stop : timespec) : Int :=
  (stop.tv_sec - start.tv_sec) * 1000000000 + (stop.tv_nsec - start.tv_nsec)

/-- Elapsed time truncated to whole milliseconds, as a `uint32_t`. -/
def true_ms (start stop : timespec) : Nat :=
  toU32 (elapsed_ns start stop / 1000000)

/-- Order on clock readings with nanoseconds in range. -/
def timespec.le (a b : timespec) : Prop :=
  a.tv_sec < b.tv_sec ∨ (a.tv_sec = b.tv_sec ∧ a.tv_nsec ≤ b.tv_nsec)

/-- A clock reading as the kernel produces it: nanoseconds in `[0, 10^9)`. -/
def timespec.valid (a : timespec) : Prop :=
  0 ≤ a.tv_nsec ∧ a.tv_nsec < 1000000000

/-! ## Statements about `DomainNameQuery::query` -/

/-- The four assignments of the success branch, field by field. -/
theorem record_fields (d : DomainNameQuery) (ms : Nat) (now : Int) :
    (d.record ms now).sum_ = (d.sum_ + ms) % U32 ∧
    (d.record ms now).sumsq_ = (d.sumsq_ + (ms * ms) % U32) % U64 ∧
    (d.record ms now).ntimes = (d.ntimes + 1) % U32 ∧
    (d.record ms now).last_time_ = now ∧
    (d.record ms now).domain_ = d.domain_ :=
  ⟨rfl, rfl, rfl, rfl, rfl⟩

/-- Below `2^16` the 32-bit product is the true square, so the success branch adds
`ms²` to `sumsq_`. -/
theorem record_sumsq_of_lt (d : DomainNameQuery) (ms : Nat) (now : Int) (h : ms < 65536) :
    (d.record ms now).sumsq_ = (d.sumsq_ + ms ^ 2) % U64 := by
  have h2 : ms * ms < U32 := by
    have : ms * ms ≤ 65535 * 65535 := Nat.mul_le_mul (by omega) (by omega)
    unfold U32; omega
  simp only [DomainNameQuery.record, Nat.mod_eq_of_lt h2, pow_two]

/-- C1, evaluated at a successful probe that took 65.536 s: `ms` is `65536`, the field `sum_`
grows by `65536`, `ntimes` by one, `last_time_` is the observation time, but `sumsq_` stays
`0` although the square of `65536` is `4294967296`, which fits the 64-bit field. -/
theorem query_sumsq_at_65536 :
    DomainNameQuery.elapsed_ms ⟨0, 0⟩ ⟨65, 536000000⟩ = 65536 ∧
    (DomainNameQuery.new "example.com").query ⟨0, 0⟩ (Probe.packet ⟨65, 536000000⟩ 1000)
      = { domain_ := "example.com", sum_ := 65536, sumsq_ := 0, ntimes := 1,
          last_time_ := 1000 } ∧
    ((DomainNameQuery.new "example.com").sumsq_ + 65536 ^ 2) % U64 = 4294967296 := by
  refine ⟨by decide, by decide, by decide⟩

/-- C2: a call of `query` whose probe fails, because the synthesized name is rejected or
because the resolver returns no packet, returns the object as it was: `sum_`, `sumsq_`,
`ntimes` and `last_time_` are all unchanged. -/
theorem query_failed_unchanged (d : DomainNameQuery) (start : timespec) :
    d.query start Probe.malformed = d ∧ d.query start Probe.no_packet = d ∧
    (d.query start Probe.malformed).sum_ = d.sum_ ∧
    (d.query start Probe.malformed).sumsq_ = d.sumsq_ ∧
    (d.query start Probe.malformed).ntimes = d.ntimes ∧
    (d.query start Probe.malformed).last_time_ = d.last_time_ ∧
    (d.query start Probe.no_packet).sum_ = d.sum_ ∧
    (d.query start Probe.no_packet).sumsq_ = d.sumsq_ ∧
    (d.query start Probe.no_packet).ntimes = d.ntimes ∧
    (d.query start Probe.no_packet).last_time_ = d.last_time_ :=
  ⟨rfl, rfl, rfl, rfl, rfl, rfl, rfl, rfl, rfl, rfl⟩

/-- A probe that did not succeed leaves the object as it was. -/
theorem query_of_not_succeeded (d : DomainNameQuery) (start : timespec) (p : Probe)
    (hp : DomainNameQuery.succeeded p = false) : d.query start p = d := by
  cases p with
  | malformed => rfl
  | no_packet => rfl
  | packet stop now => simp [DomainNameQuery.succeeded] at hp

/-- A probe that succeeded runs the success branch with the measured `ms`. -/
theorem query_of_succeeded (d : DomainNameQuery) (start : timespec) (p : Probe)
    (hp : DomainNameQuery.succeeded p = true) :
    ∃ ms now, d.query start p = d.record ms now := by
  cases p with
  | malformed => simp [DomainNameQuery.succeeded] at hp
  | no_packet => simp [DomainNameQuery.succeeded] at hp
  | packet stop now => exact ⟨_, _, rfl⟩

/-! ## The latency expression -/

/-- When the nanosecond field did not go down between the two readings, the expression of
`query` is the elapsed time truncated to whole milliseconds. -/
theorem elapsed_ms_of_nsec_le (start stop : timespec)
    (h : start.tv_nsec ≤ stop.tv_nsec) :
    DomainNameQuery.elapsed_ms start stop = true_ms start stop := by
  unfold DomainNameQuery.elapsed_ms true_ms elapsed_ns
  have h0 : 0 ≤ stop.tv_nsec - start.tv_nsec := by omega
  rw [Int.tdiv_eq_ediv h0 (by norm_num)]
  congr 1
  omega

/-- When the nanosecond field went down and the difference is not a whole number of
milliseconds, the expression of `query` is one more than the truncated elapsed time (both
taken as `uint32_t`). -/
theorem elapsed_ms_of_nsec_gt (start stop : timespec)
    (h : stop.tv_nsec < start.tv_nsec)
    (hr : (stop.tv_nsec - start.tv_nsec) % 1000000 ≠ 0) :
    DomainNameQuery.elapsed_ms start stop
      = toU32 (elapsed_ns start stop / 1000000 + 1) := by
  unfold DomainNameQuery.elapsed_ms elapsed_ns
  have key : Int.tdiv (stop.tv_nsec - start.tv_nsec) 1000000
      = (stop.tv_nsec - start.tv_nsec) / 1000000 + 1 := by
    have hx : stop.tv_nsec - start.tv_nsec < 0 := by omega
    generalize stop.tv_nsec - start.tv_nsec = x at hr hx ⊢
    have h1 : Int.tdiv x 1000000 = -(Int.tdiv (-x) 1000000) := by
      rw [Int.neg_tdiv, neg_neg]
    rw [h1, Int.tdiv_eq_ediv (by omega) (by norm_num)]
    omega
  rw [key]
  congr 1
  omega

/-- C9, evaluated at a lookup of 0.7 ms that straddles a second boundary: both clock readings
are valid, the first is before the second, the elapsed time is 700000 ns, which truncates to
0 ms, and the expression of `query` gives 1 ms. -/
theorem elapsed_ms_across_second :
    timespec.valid ⟨5, 999500000⟩ ∧ timespec.valid ⟨6, 200000⟩ ∧
    timespec.le ⟨5, 999500000⟩ ⟨6, 200000⟩ ∧
    elapsed_ns ⟨5, 999500000⟩ ⟨6, 200000⟩ = 700000 ∧
    true_ms ⟨5, 999500000⟩ ⟨6, 200000⟩ = 0 ∧
    DomainNameQuery.elapsed_ms ⟨5, 999500000⟩ ⟨6, 200000⟩ = 1 := by
  refine ⟨?_, ?_, ?_, ?_, ?_, ?_⟩
  · unfold timespec.valid; decide
  · unfold timespec.valid; decide
  · unfold timespec.le; decide
  · decide
  · decide
  · decide

/-! ## The randomized query name -/

/-- The characters `'A' + k` for `k < 26` are the upper-case letters. -/
theorem upper_of_lt_26 : ∀ k : Fin 26,
    'A' ≤ Char.ofNat (k.val + 65) ∧ Char.ofNat (k.val + 65) ≤ 'Z' := by
  decide

/-- C10: `get_query_domain` returns a string nine characters longer than the domain; its
first eight characters are `'A' + (r_i mod 26)`, upper-case letters; the ninth is `'.'`; the
rest is the domain. -/
theorem get_query_domain_shape (d : DomainNameQuery) (random : Nat → Nat) :
    (d.get_query_domain random).length = d.domain_.length + 9 ∧
    (∀ i : Fin 8,
      (d.get_query_domain random).data.get? i.val
          = some (Char.ofNat (65 + random i.val % 26)) ∧
      'A' ≤ Char.ofNat (65 + random i.val % 26) ∧
      Char.ofNat (65 + random i.val % 26) ≤ 'Z') ∧
    (d.get_query_domain random).data.get? 8 = some '.' ∧
    (d.get_query_domain random).data.drop 9 = d.domain_.data := by
  have hdata : (d.get_query_domain random).data
      = (List.range 8).map (fun i => Char.ofNat (random i % 26 + 65)) ++ ['.']
          ++ d.domain_.data := by
    rw [DomainNameQuery.get_query_domain, String.data_append]
  have h8 : List.range 8 = [0, 1, 2, 3, 4, 5, 6, 7] := by decide
  have hlen : (d.get_query_domain random).length
      = (d.get_query_domain random).data.length := rfl
  have hlen0 : d.domain_.length = d.domain_.data.length := rfl
  rw [hlen, hlen0, hdata, h8]
  refine ⟨?_, ?_, ?_, ?_⟩
  · simp only [List.length_append, List.length_cons, List.length_nil, List.length_map]
    omega
  · intro i
    have hlt : random i.val % 26 < 26 := Nat.mod_lt _ (by norm_num)
    have hup := upper_of_lt_26 ⟨random i.val % 26, hlt⟩
    have hcomm : 65 + random i.val % 26 = random i.val % 26 + 65 := by omega
    rw [hcomm]
    refine ⟨?_, hup.1, hup.2⟩
    fin_cases i <;> rfl
  · rfl
  · rfl

/-! ## The work list under interleaving -/

namespace MultithreadQuery

variable {α : Type}

theorem exec_cons (i : Nat) (schedule : List Nat) (s : MultithreadQuery α) :
    exec (i :: schedule) s = exec schedule (run_step i s) := rfl

/-- One step keeps "popped elements followed by the remaining list" fixed. -/
theorem run_step_trace (i : Nat) (s : MultithreadQuery α) :
    (run_step i s).popped.map Prod.snd ++ (run_step i s).domains_
      = s.popped.map Prod.snd ++ s.domains_ := by
  unfold run_step
  split
  · split
    · rfl
    · next d rest hd => simp [hd]
  · rfl

theorem exec_trace (schedule : List Nat) (s : MultithreadQuery α) :
    (exec schedule s).popped.map Prod.snd ++ (exec schedule s).domains_
      = s.popped.map Prod.snd ++ s.domains_ := by
  induction schedule generalizing s with
  | nil => rfl
  | cons i rest ih => rw [exec_cons, ih, run_step_trace]

theorem run_step_length (i : Nat) (s : MultithreadQuery α) :
    (run_step i s).running.length = s.running.length := by
  unfold run_step
  split
  · split
    · simp
    · rfl
  · rfl

theorem exec_length (schedule : List Nat) (s : MultithreadQuery α) :
    (exec schedule s).running.length = s.running.length := by
  induction schedule generalizing s with
  | nil => rfl
  | cons i rest ih => rw [exec_cons, ih, run_step_length]

theorem run_step_all_running_or_empty (i : Nat) (s : MultithreadQuery α)
    (h : AllRunningOrEmpty s) : AllRunningOrEmpty (run_step i s) := by
  unfold run_step
  split
  · split
    · exact Or.inr (by assumption)
    · next d rest hd =>
      rcases h with h | h
      · exact Or.inl h
      · rw [hd] at h; cases h
  · exact h

theorem exec_all_running_or_empty (schedule : List Nat) (s : MultithreadQuery α)
    (h : AllRunningOrEmpty s) : AllRunningOrEmpty (exec schedule s) := by
  induction schedule generalizing s with
  | nil => exact h
  | cons i rest ih => exact ih _ (run_step_all_running_or_empty i s h)

theorem new_all_running_or_empty (domains : List α) (threads : Int) :
    AllRunningOrEmpty (new domains threads) := by
  left
  intro b hb
  exact List.eq_of_mem_replicate hb

/-- Only existing threads pop. -/
theorem run_step_thread_lt (i : Nat) (s : MultithreadQuery α)
    (h : ∀ p ∈ s.popped, p.1 < s.running.length) :
    ∀ p ∈ (run_step i s).popped, p.1 < (run_step i s).running.length := by
  rw [run_step_length]
  unfold run_step
  split
  · next hi =>
    split
    · exact h
    · intro p hp
      simp only [List.mem_append, List.mem_singleton] at hp
      rcases hp with hp | hp
      · exact h p hp
      · subst hp
        by_contra hlt
        rw [List.getD_eq_default _ _ (by omega)] at hi
        cases hi
  · exact h

theorem exec_thread_lt (schedule : List Nat) (s : MultithreadQuery α)
    (h : ∀ p ∈ s.popped, p.1 < s.running.length) :
    ∀ p ∈ (exec schedule s).popped, p.1 < (exec schedule s).running.length := by
  induction schedule generalizing s with
  | nil => exact h
  | cons i rest ih => exact ih _ (run_step_thread_lt i s h)

/-- After all threads of a pool with at least one thread have returned, the list is empty and
the elements popped, in pop order, are the elements of the initial list, each popped by an
existing thread. -/
theorem drained_of_joined (domains : List α) (threads : Int) (schedule : List Nat)
    (hthreads : 1 ≤ threads)
    (hjoined : (exec schedule (new domains threads)).joined = true) :
    (exec schedule (new domains threads)).popped.map Prod.snd = domains ∧
    (exec schedule (new domains threads)).domains_ = [] ∧
    ∀ p ∈ (exec schedule (new domains threads)).popped, p.1 < threads.toNat := by
  have hlen : (exec schedule (new domains threads)).running.length = threads.toNat := by
    rw [exec_length]; simp [new]
  have hempty : (exec schedule (new domains threads)).domains_ = [] := by
    rcases exec_all_running_or_empty schedule _ (new_all_running_or_empty domains threads)
      with h | h
    · exfalso
      have hpos : 0 < (exec schedule (new domains threads)).running.length := by
        rw [hlen]; omega
      obtain ⟨b, hb⟩ := List.exists_mem_of_length_pos hpos
      have h1 := h b hb
      have h2 : (!b) = true := by
        unfold joined at hjoined
        exact (List.all_eq_true.mp hjoined) b hb
      rw [h1] at h2
      cases h2
    · exact h
  have htrace := exec_trace schedule (new domains threads)
  rw [hempty] at htrace
  refine ⟨?_, hempty, ?_⟩
  · simpa [new] using htrace
  · have := exec_thread_lt schedule (new domains threads) (by simp [new])
    rw [hlen] at this
    exact this

/-! ### Every fair interleaving ends -/

theorem exec_popped_length (schedule : List Nat) (s : MultithreadQuery α) :
    (exec schedule s).popped.length + (exec schedule s).domains_.length
      = s.popped.length + s.domains_.length := by
  have h := congrArg List.length (exec_trace schedule s)
  simpa using h

/-- A thread that has returned stays returned. -/
theorem run_step_returned (i j : Nat) (s : MultithreadQuery α)
    (h : s.running.getD i false = false) :
    (run_step j s).running.getD i false = false := by
  unfold run_step
  split
  · split
    · by_cases hij : j = i
      · subst hij
        by_cases hlt : j < s.running.length
        · simp [List.getD_eq_getElem?_getD, List.getElem?_set, hlt]
        · rw [List.getD_eq_default]
          simp; omega
      · simpa [List.getD_eq_getElem?_getD, List.getElem?_set, hij] using h
    · exact h
  · exact h

theorem exec_returned (i : Nat) (schedule : List Nat) (s : MultithreadQuery α)
    (h : s.running.getD i false = false) :
    (exec schedule s).running.getD i false = false := by
  induction schedule generalizing s with
  | nil => exact h
  | cons j rest ih => exact ih _ (run_step_returned i j s h)

theorem run_step_popped_le (j : Nat) (s : MultithreadQuery α) :
    s.popped.length ≤ (run_step j s).popped.length := by
  unfold run_step
  split
  · split
    · exact le_refl _
    · simp
  · exact le_refl _

/-- A step of a thread that is still running afterwards was a pop. -/
theorem run_step_popped_succ (i : Nat) (s : MultithreadQuery α)
    (h : (run_step i s).running.getD i false = true) :
    (run_step i s).popped.length = s.popped.length + 1 := by
  unfold run_step at h ⊢
  split
  · next hi =>
    split
    · next hd =>
      exfalso
      simp only [hi, hd, if_true] at h
      by_cases hlt : i < s.running.length
      · simp [List.getD_eq_getElem?_getD, List.getElem?_set, hlt] at h
      · rw [List.getD_eq_default] at h
        · cases h
        · simp; omega
    · simp
  · next hi =>
    exfalso
    rw [if_neg hi] at h
    exact hi h

/-- A thread still running at the end popped at every one of its turns. -/
theorem count_le_popped (i : Nat) (schedule : List Nat) (s : MultithreadQuery α)
    (h : (exec schedule s).running.getD i false = true) :
    schedule.count i + s.popped.length ≤ (exec schedule s).popped.length := by
  induction schedule generalizing s with
  | nil => simp [exec]
  | cons j rest ih =>
    rw [exec_cons] at h ⊢
    have hih := ih _ h
    have hstep : (run_step j s).running.getD i false = true := by
      by_contra hc
      have hf : (run_step j s).running.getD i false = false := by
        cases hb : (run_step j s).running.getD i false
        · rfl
        · exact absurd hb hc
      rw [exec_returned i rest _ hf] at h
      cases h
    by_cases hij : j = i
    · subst hij
      have := run_step_popped_succ j s hstep
      rw [List.count_cons_self]
      omega
    · have := run_step_popped_le j s
      rw [List.count_cons_of_ne (fun h => hij h.symm)]
      omega

/-- Termination of the batch: under every interleaving that gives each thread more turns
than the list has elements, all threads have returned. -/
theorem joined_of_fair (domains : List α) (threads : Int) (schedule : List Nat)
    (hfair : ∀ i, i < threads.toNat → domains.length < schedule.count i) :
    (exec schedule (new domains threads)).joined = true := by
  have hlen : (exec schedule (new domains threads)).running.length = threads.toNat := by
    rw [exec_length]; simp [new]
  unfold joined
  rw [List.all_eq_true]
  intro b hb
  obtain ⟨i, hi, hget⟩ := List.getElem_of_mem hb
  cases hbv : b
  · rfl
  · exfalso
    have hrun : (exec schedule (new domains threads)).running.getD i false = true := by
      rw [List.getD_eq_getElem?_getD, List.getElem?_eq_getElem hi, hget, hbv]
      rfl
    have h1 := count_le_popped i schedule _ hrun
    have h2 := exec_popped_length schedule (new domains threads)
    have h3 := hfair i (by omega)
    simp only [new, List.length_nil] at h1 h2
    omega

/-- Some interleaving ends with all threads returned: round robin, one round more than the
list has elements. -/
theorem exists_joined (domains : List α) (threads : Int) :
    ∃ schedule, (exec schedule (new domains threads)).joined = true := by
  refine ⟨(List.replicate (domains.length + 1) (List.range threads.toNat)).flatten, ?_⟩
  apply joined_of_fair
  intro i hi
  have hcount : ∀ k : Nat,
      ((List.replicate k (List.range threads.toNat)).flatten).count i = k := by
    intro k
    induction k with
    | zero => simp
    | succ k ih =>
      rw [List.replicate_succ, List.flatten_cons, List.count_append, ih,
        List.count_eq_one_of_mem (List.nodup_range _) (List.mem_range.mpr hi)]
      omega
  rw [hcount]
  omega

/-- With at least one thread, once all threads have returned `query()` has been called once
on every object of the list. -/
theorem objects_after_of_joined (threads : Int) (schedule : List Nat)
    (jobs : List (DomainNameQuery × timespec × Probe)) (hthreads : 1 ≤ threads)
    (hjoined : (exec schedule (new jobs threads)).joined = true) :
    objects_after threads schedule jobs = batch threads jobs := by
  obtain ⟨h1, h2, -⟩ := drained_of_joined jobs threads schedule hthreads hjoined
  have hpos : 0 < threads := by omega
  unfold objects_after batch
  rw [h2, if_pos hpos, List.map_nil, List.append_nil]
  conv_rhs => rw [← h1]
  rw [List.map_map]
  rfl

/-- Without threads nothing is popped and no object is touched. -/
theorem objects_after_of_no_thread (threads : Int) (schedule : List Nat)
    (jobs : List (DomainNameQuery × timespec × Probe)) (hthreads : threads ≤ 0) :
    objects_after threads schedule jobs = batch threads jobs := by
  have hnil : (new jobs threads).running = [] := by
    simp [new, Int.toNat_eq_zero.mpr hthreads]
  have hstep : ∀ (i : Nat) (s : MultithreadQuery (DomainNameQuery × timespec × Probe)),
      s.running = [] → run_step i s = s := by
    intro i s hs
    unfold run_step
    rw [hs]
    simp
  have hexec : ∀ (sch : List Nat) (s : MultithreadQuery (DomainNameQuery × timespec × Probe)),
      s.running = [] → exec sch s = s := by
    intro sch
    induction sch with
    | nil => intro s _; rfl
    | cons i rest ih =>
      intro s hs
      rw [exec_cons, hstep i s hs]
      exact ih s hs
  unfold objects_after batch
  rw [hexec schedule _ hnil, if_neg (by omega)]
  simp [new]

/-- C6: each locked empty-check / front / pop_front being one atomic step, for every initial
list, every number of threads `threads ≥ 1` and every interleaving after which all threads
have returned: the elements popped, in pop order, are exactly the initial list (each element
popped once, nothing left out), each was popped by one of the `threads` threads, and the list
is empty at the end. -/
theorem work_list_exactly_once (domains : List α) (threads : Int) (schedule : List Nat)
    (hthreads : 1 ≤ threads)
    (hjoined : (exec schedule (new domains threads)).joined = true) :
    (exec schedule (new domains threads)).popped.map Prod.snd = domains ∧
    (exec schedule (new domains threads)).domains_ = [] ∧
    ∀ p ∈ (exec schedule (new domains threads)).popped, p.1 < threads.toNat :=
  drained_of_joined domains threads schedule hthreads hjoined

/-- C6 at three elements and two threads taking turns. -/
theorem work_list_exactly_once_witness :
    (1 : Int) ≤ 2 ∧
    (exec [0, 1, 0, 1, 0] (new ["google.com", "yahoo.com", "qq.com"] 2)).joined = true ∧
    (exec [0, 1, 0, 1, 0] (new ["google.com", "yahoo.com", "qq.com"] 2)).popped
      = [(0, "google.com"), (1, "yahoo.com"), (0, "qq.com")] ∧
    ((exec [0, 1, 0, 1, 0] (new ["google.com", "yahoo.com", "qq.com"] 2)).popped.map Prod.snd
        = ["google.com", "yahoo.com", "qq.com"] ∧
      (exec [0, 1, 0, 1, 0] (new ["google.com", "yahoo.com", "qq.com"] 2)).domains_ = [] ∧
      ∀ p ∈ (exec [0, 1, 0, 1, 0] (new ["google.com", "yahoo.com", "qq.com"] 2)).popped,
        p.1 < (2 : Int).toNat) :=
  ⟨by decide, by decide, by decide,
    work_list_exactly_once ["google.com", "yahoo.com", "qq.com"] 2 [0, 1, 0, 1, 0]
      (by decide) (by decide)⟩

end MultithreadQuery

/-! ## The insert / update decision of `queryAll` -/

namespace MysqlQuery

variable {F : Type}

theorem batch_append (parallel : Int) (a b : List (DomainNameQuery × timespec × Probe)) :
    MultithreadQuery.batch parallel (a ++ b)
      = MultithreadQuery.batch parallel a ++ MultithreadQuery.batch parallel b := by
  unfold MultithreadQuery.batch
  split <;> simp

/-- The loop of `queryAll` treats the objects one by one: the result on a list with a job
`j` in the middle is the result before it, the result on `j` alone, and the result after
it. -/
theorem queryAll_split (fl : FloatOps F) (timebuf : Int → String) (table : String)
    (parallel : Int) (pre post : List (DomainNameQuery × timespec × Probe))
    (j : DomainNameQuery × timespec × Probe) :
    queryAll fl timebuf table parallel (pre ++ j :: post)
      = ((queryAll fl timebuf table parallel pre).1
            ++ (queryAll fl timebuf table parallel [j]).1
            ++ (queryAll fl timebuf table parallel post).1,
         (queryAll fl timebuf table parallel pre).2
            ++ (queryAll fl timebuf table parallel [j]).2
            ++ (queryAll fl timebuf table parallel post).2) := by
  have hcons : pre ++ j :: post = pre ++ ([j] ++ post) := rfl
  simp only [queryAll, hcons, batch_append, List.filterMap_append, List.append_assoc]

/-- The result of `queryAll` on one job whose probe ran. -/
theorem queryAll_single (fl : FloatOps F) (timebuf : Int → String) (table : String)
    (parallel : Int) (d : DomainNameQuery) (start : timespec) (p : Probe)
    (hpar : 0 < parallel) :
    queryAll fl timebuf table parallel [(d, start, p)]
      = ([d.query start p], (statement fl timebuf table (d.query start p)).toList) := by
  simp only [queryAll, MultithreadQuery.batch, if_pos hpar, List.map_cons, List.map_nil]
  cases h : statement fl timebuf table (d.query start p) <;> simp [List.filterMap, h]

/-- The result of `queryAll` on one job when no thread was started. -/
theorem queryAll_single_no_thread (fl : FloatOps F) (timebuf : Int → String)
    (table : String) (parallel : Int) (d : DomainNameQuery) (start : timespec) (p : Probe)
    (hpar : parallel ≤ 0) :
    queryAll fl timebuf table parallel [(d, start, p)]
      = ([d], (statement fl timebuf table d).toList) := by
  simp only [queryAll, MultithreadQuery.batch, if_neg (not_lt.mpr hpar), List.map_cons,
    List.map_nil]
  cases h : statement fl timebuf table d <;> simp [List.filterMap, h]

/-- The decision of the loop body is by the cumulative count alone. -/
theorem statement_cases (fl : FloatOps F) (timebuf : Int → String) (table : String)
    (d : DomainNameQuery) :
    (d.ntimes = 0 ∧ statement fl timebuf table d = none) ∨
    (d.ntimes = 1 ∧ statement fl timebuf table d = some
      (Stmt.insert table
        [SqlValue.quoted d.domain_, SqlValue.float (d.avg fl), SqlValue.float (d.stddev fl),
         SqlValue.u32 d.sum_, SqlValue.u64 d.sumsq_, SqlValue.u32 d.ntimes,
         SqlValue.quoted (timebuf d.last_time_), SqlValue.quoted (timebuf d.last_time_)])) ∨
    (1 < d.ntimes ∧ statement fl timebuf table d = some
      (Stmt.update table
        [("avg_in_ms", SqlValue.float (d.avg fl)),
         ("stddev_in_ms", SqlValue.float (d.stddev fl)),
         ("sum_in_ms", SqlValue.u32 d.sum_),
         ("sum_sqrt_in_ms", SqlValue.u64 d.sumsq_),
         ("num_queries", SqlValue.u32 d.ntimes),
         ("last_ts", SqlValue.quoted (timebuf d.last_time_))]
        (SqlValue.quoted d.domain_))) := by
  unfold statement DomainNameQuery.numberoftimes DomainNameQuery.sum DomainNameQuery.sumsq
    DomainNameQuery.domain DomainNameQuery.last_time
  rcases Nat.lt_trichotomy d.ntimes 1 with h | h | h
  · left
    have h0 : d.ntimes = 0 := by omega
    exact ⟨h0, by rw [if_pos h0]⟩
  · right; left
    refine ⟨h, ?_⟩
    rw [if_neg (by omega), if_neg (by omega), if_pos h]
  · right; right
    refine ⟨h, ?_⟩
    rw [if_neg (by omega), if_pos h]

/-- C3, evaluated at a domain seeded with count 2 whose probe fails: `queryAll` still
executes an update for it, and the update sets `last_ts` to the formatting of time 0, the
value `last_time_` has when no probe of this process succeeded. -/
theorem queryAll_failed_probe_updates :
    queryAll FExpr.ops seconds_text "queries_result" 10
        [((DomainNameQuery.new "example.com").init ⟨30, 500, 2⟩, ⟨0, 0⟩, Probe.no_packet)]
      = ([{ domain_ := "example.com", sum_ := 30, sumsq_ := 500, ntimes := 2,
            last_time_ := 0 }],
         [Stmt.update "queries_result"
            [("avg_in_ms", SqlValue.float (FExpr.div (FExpr.ofU32 30) (FExpr.ofU32 2))),
             ("stddev_in_ms", SqlValue.float (FExpr.sqrtf (FExpr.sub
                (FExpr.div (FExpr.ofU64 500) (FExpr.ofU32 2))
                (FExpr.mul (FExpr.div (FExpr.ofU32 30) (FExpr.ofU32 2))
                  (FExpr.div (FExpr.ofU32 30) (FExpr.ofU32 2)))))),
             ("sum_in_ms", SqlValue.u32 30),
             ("sum_sqrt_in_ms", SqlValue.u64 500),
             ("num_queries", SqlValue.u32 2),
             ("last_ts", SqlValue.quoted (seconds_text 0))]
            (SqlValue.quoted "example.com")]) := by
  rfl

/-- C3 as the code has it: a domain whose probe produced no successful sample in the batch
and whose cumulative count is 0 contributes no statement to `queryAll`, neither insert nor
update, and its aggregate is unchanged, whatever the number of threads and the other
domains of the batch. -/
theorem queryAll_skips_count_zero (fl : FloatOps F) (timebuf : Int → String)
    (table : String) (parallel : Int) (pre post : List (DomainNameQuery × timespec × Probe))
    (d : DomainNameQuery) (start : timespec) (p : Probe)
    (hfail : DomainNameQuery.succeeded p = false) (hzero : d.ntimes = 0) :
    queryAll fl timebuf table parallel (pre ++ (d, start, p) :: post)
      = ((queryAll fl timebuf table parallel pre).1 ++ d ::
            (queryAll fl timebuf table parallel post).1,
         (queryAll fl timebuf table parallel pre).2
            ++ (queryAll fl timebuf table parallel post).2) := by
  have hstmt : statement fl timebuf table d = none := by
    rcases statement_cases fl timebuf table d with h | h | h
    · exact h.2
    · omega
    · omega
  rw [queryAll_split]
  by_cases hpar : 0 < parallel
  · rw [queryAll_single fl timebuf table parallel d start p hpar,
      query_of_not_succeeded d start p hfail, hstmt]
    simp
  · rw [queryAll_single_no_thread fl timebuf table parallel d start p (by omega), hstmt]
    simp

/-- C3 as the code has it, at a fresh domain whose probe returns no packet. -/
theorem queryAll_skips_count_zero_witness :
    DomainNameQuery.succeeded Probe.no_packet = false ∧
    (DomainNameQuery.new "example.com").ntimes = 0 ∧
    queryAll FExpr.ops seconds_text "queries_result" 10
        ([] ++ (DomainNameQuery.new "example.com", ⟨0, 0⟩, Probe.no_packet) :: [])
      = ((queryAll FExpr.ops seconds_text "queries_result" 10 []).1
            ++ DomainNameQuery.new "example.com" ::
            (queryAll FExpr.ops seconds_text "queries_result" 10 []).1,
         (queryAll FExpr.ops seconds_text "queries_result" 10 []).2
            ++ (queryAll FExpr.ops seconds_text "queries_result" 10 []).2) :=
  ⟨rfl, rfl,
    queryAll_skips_count_zero FExpr.ops seconds_text "queries_result" 10 [] []
      (DomainNameQuery.new "example.com") ⟨0, 0⟩ Probe.no_packet rfl rfl⟩

/-- A domain whose probe failed and whose cumulative count is not 0 contributes exactly one
statement. -/
theorem queryAll_failed_probe_writes (fl : FloatOps F) (timebuf : Int → String)
    (table : String) (parallel : Int) (d : DomainNameQuery) (start : timespec) (p : Probe)
    (hfail : DomainNameQuery.succeeded p = false) (hpos : d.ntimes ≠ 0) :
    ∃ st, (queryAll fl timebuf table parallel [(d, start, p)]).2 = [st] := by
  have hstmt : ∃ st, statement fl timebuf table d = some st := by
    rcases statement_cases fl timebuf table d with h | h | h
    · exact absurd h.1 hpos
    · exact ⟨_, h.2⟩
    · exact ⟨_, h.2⟩
  obtain ⟨st, hst⟩ := hstmt
  refine ⟨st, ?_⟩
  by_cases hpar : 0 < parallel
  · rw [queryAll_single fl timebuf table parallel d start p hpar,
      query_of_not_succeeded d start p hfail, hst]
    rfl
  · rw [queryAll_single_no_thread fl timebuf table parallel d start p (by omega), hst]
    rfl

/-- C4, evaluated at the scenario aggregate: the samples 10 ms, 20 ms, failure give
`{sum = 30, sumsq = 500, count = 2}`, and for a domain whose in-memory count rises from 1 to
2 in the batch `queryAll` executes an update, not an insert. -/
theorem queryAll_scenario_updates :
    (DomainNameQuery.new "example.com").queries
        [(⟨0, 0⟩, Probe.packet ⟨0, 10000000⟩ 100), (⟨1, 0⟩, Probe.packet ⟨1, 20000000⟩ 101),
         (⟨2, 0⟩, Probe.no_packet)]
      = { domain_ := "example.com", sum_ := 30, sumsq_ := 500, ntimes := 2,
          last_time_ := 101 } ∧
    queryAll FExpr.ops seconds_text "queries_result" 10
        [((DomainNameQuery.new "example.com").queries
            [(⟨0, 0⟩, Probe.packet ⟨0, 10000000⟩ 100)],
          ⟨1, 0⟩, Probe.packet ⟨1, 20000000⟩ 101)]
      = ([{ domain_ := "example.com", sum_ := 30, sumsq_ := 500, ntimes := 2,
            last_time_ := 101 }],
         [Stmt.update "queries_result"
            [("avg_in_ms", SqlValue.float (FExpr.div (FExpr.ofU32 30) (FExpr.ofU32 2))),
             ("stddev_in_ms", SqlValue.float (FExpr.sqrtf (FExpr.sub
                (FExpr.div (FExpr.ofU64 500) (FExpr.ofU32 2))
                (FExpr.mul (FExpr.div (FExpr.ofU32 30) (FExpr.ofU32 2))
                  (FExpr.div (FExpr.ofU32 30) (FExpr.ofU32 2)))))),
             ("sum_in_ms", SqlValue.u32 30),
             ("sum_sqrt_in_ms", SqlValue.u64 500),
             ("num_queries", SqlValue.u32 2),
             ("last_ts", SqlValue.quoted (seconds_text 101))]
            (SqlValue.quoted "example.com")]) := by
  constructor <;> rfl

/-- C4 as the code has it: a domain with no prior persisted row (a freshly constructed
object, count 0) that gets one successful sample in the batch has count 1 afterwards, and
`queryAll` executes for it exactly one statement, an insert carrying the name, `avg()`,
`stddev()`, `sum_`, `sumsq_`, the count, and twice the formatted observation time (first-seen
and last-seen). -/
theorem queryAll_inserts_first_sample (fl : FloatOps F) (timebuf : Int → String)
    (table : String) (parallel : Int) (pre post : List (DomainNameQuery × timespec × Probe))
    (name : String) (start stop : timespec) (now : Int) (hpar : 0 < parallel) :
    ((DomainNameQuery.new name).query start (Probe.packet stop now)).ntimes = 1 ∧
    ((DomainNameQuery.new name).query start (Probe.packet stop now)).last_time_ = now ∧
    queryAll fl timebuf table parallel
        (pre ++ (DomainNameQuery.new name, start, Probe.packet stop now) :: post)
      = ((queryAll fl timebuf table parallel pre).1
            ++ (DomainNameQuery.new name).query start (Probe.packet stop now) ::
            (queryAll fl timebuf table parallel post).1,
         (queryAll fl timebuf table parallel pre).2
            ++ Stmt.insert table
                [SqlValue.quoted name,
                 SqlValue.float
                  (((DomainNameQuery.new name).query start (Probe.packet stop now)).avg fl),
                 SqlValue.float
                  (((DomainNameQuery.new name).query start (Probe.packet stop now)).stddev fl),
                 SqlValue.u32
                  ((DomainNameQuery.new name).query start (Probe.packet stop now)).sum_,
                 SqlValue.u64
                  ((DomainNameQuery.new name).query start (Probe.packet stop now)).sumsq_,
                 SqlValue.u32 1,
                 SqlValue.quoted (timebuf now),
                 SqlValue.quoted (timebuf now)] ::
            (queryAll fl timebuf table parallel post).2) := by
  have hn : ((DomainNameQuery.new name).query start (Probe.packet stop now)).ntimes = 1 := by
    simp [DomainNameQuery.query, DomainNameQuery.record, DomainNameQuery.new, U32]
  have ht : ((DomainNameQuery.new name).query start (Probe.packet stop now)).last_time_
      = now := rfl
  have hd : ((DomainNameQuery.new name).query start (Probe.packet stop now)).domain_
      = name := rfl
  refine ⟨hn, ht, ?_⟩
  rw [queryAll_split, queryAll_single fl timebuf table parallel _ start _ hpar]
  rcases statement_cases fl timebuf table
      ((DomainNameQuery.new name).query start (Probe.packet stop now)) with h | h | h
  · omega
  · rw [h.2, hn, ht, hd]
    simp
  · omega

/-- C4 as the code has it, at a fresh `example.com` answered after 10 ms. -/
theorem queryAll_inserts_first_sample_witness :
    (0 : Int) < 10 ∧
    queryAll FExpr.ops seconds_text "queries_result" 10
        [(DomainNameQuery.new "example.com", ⟨0, 0⟩, Probe.packet ⟨0, 10000000⟩ 100)]
      = ([{ domain_ := "example.com", sum_ := 10, sumsq_ := 100, ntimes := 1,
            last_time_ := 100 }],
         [Stmt.insert "queries_result"
            [SqlValue.quoted "example.com",
             SqlValue.float (FExpr.div (FExpr.ofU32 10) (FExpr.ofU32 1)),
             SqlValue.float (FExpr.sqrtf (FExpr.sub
                (FExpr.div (FExpr.ofU64 100) (FExpr.ofU32 1))
                (FExpr.mul (FExpr.div (FExpr.ofU32 10) (FExpr.ofU32 1))
                  (FExpr.div (FExpr.ofU32 10) (FExpr.ofU32 1))))),
             SqlValue.u32 10,
             SqlValue.u64 100,
             SqlValue.u32 1,
             SqlValue.quoted (seconds_text 100),
             SqlValue.quoted (seconds_text 100)]]) :=
  ⟨by decide,
    (queryAll_inserts_first_sample FExpr.ops seconds_text "queries_result" 10 [] []
      "example.com" ⟨0, 0⟩ ⟨0, 10000000⟩ 100 (by decide)).2.2⟩

/-- C5, evaluated at two seeded rows that each gain one successful sample of 3 ms: seeded with
count `4294967295` the count wraps to 0 and `queryAll` executes nothing for the domain; seeded
with count 0 the count becomes 1 and `queryAll` executes an insert, not an update. -/
theorem queryAll_seeded_not_updated :
    queryAll FExpr.ops seconds_text "queries_result" 10
        [((DomainNameQuery.new "example.com").init ⟨7, 49, 4294967295⟩, ⟨0, 0⟩,
          Probe.packet ⟨0, 3000000⟩ 100)]
      = ([{ domain_ := "example.com", sum_ := 10, sumsq_ := 58, ntimes := 0,
            last_time_ := 100 }], []) ∧
    queryAll FExpr.ops seconds_text "queries_result" 10
        [((DomainNameQuery.new "example.com").init ⟨0, 0, 0⟩, ⟨0, 0⟩,
          Probe.packet ⟨0, 3000000⟩ 100)]
      = ([{ domain_ := "example.com", sum_ := 3, sumsq_ := 9, ntimes := 1,
            last_time_ := 100 }],
         [Stmt.insert "queries_result"
            [SqlValue.quoted "example.com",
             SqlValue.float (FExpr.div (FExpr.ofU32 3) (FExpr.ofU32 1)),
             SqlValue.float (FExpr.sqrtf (FExpr.sub
                (FExpr.div (FExpr.ofU64 9) (FExpr.ofU32 1))
                (FExpr.mul (FExpr.div (FExpr.ofU32 3) (FExpr.ofU32 1))
                  (FExpr.div (FExpr.ofU32 3) (FExpr.ofU32 1))))),
             SqlValue.u32 3,
             SqlValue.u64 9,
             SqlValue.u32 1,
             SqlValue.quoted (seconds_text 100),
             SqlValue.quoted (seconds_text 100)]]) := by
  constructor <;> rfl

/-- C5 as the code has it: a domain seeded by `init` from a row whose count `n` satisfies
`1 ≤ n` and `n + 1 < 2^32`, and that gains one successful sample in the batch, has count
`n + 1` afterwards, and `queryAll` executes for it exactly one statement, an update of the
row of that name which sets `avg_in_ms`, `stddev_in_ms`, `sum_in_ms`, `sum_sqrt_in_ms`,
`num_queries` and `last_ts` from the in-memory aggregate and does not assign `first_ts`. -/
theorem queryAll_updates_seeded (fl : FloatOps F) (timebuf : Int → String)
    (table : String) (parallel : Int) (pre post : List (DomainNameQuery × timespec × Probe))
    (d0 : DomainNameQuery) (row : Row) (start stop : timespec) (now : Int)
    (hpar : 0 < parallel) (hlo : 1 ≤ row.num_queries) (hhi : row.num_queries + 1 < U32) :
    ((d0.init row).query start (Probe.packet stop now)).ntimes = row.num_queries + 1 ∧
    ((d0.init row).query start (Probe.packet stop now)).last_time_ = now ∧
    queryAll fl timebuf table parallel
        (pre ++ (d0.init row, start, Probe.packet stop now) :: post)
      = ((queryAll fl timebuf table parallel pre).1
            ++ (d0.init row).query start (Probe.packet stop now) ::
            (queryAll fl timebuf table parallel post).1,
         (queryAll fl timebuf table parallel pre).2
            ++ Stmt.update table
                [("avg_in_ms", SqlValue.float
                    (((d0.init row).query start (Probe.packet stop now)).avg fl)),
                 ("stddev_in_ms", SqlValue.float
                    (((d0.init row).query start (Probe.packet stop now)).stddev fl)),
                 ("sum_in_ms", SqlValue.u32
                    ((d0.init row).query start (Probe.packet stop now)).sum_),
                 ("sum_sqrt_in_ms", SqlValue.u64
                    ((d0.init row).query start (Probe.packet stop now)).sumsq_),
                 ("num_queries", SqlValue.u32 (row.num_queries + 1)),
                 ("last_ts", SqlValue.quoted (timebuf now))]
                (SqlValue.quoted d0.domain_) ::
            (queryAll fl timebuf table parallel post).2) ∧
    ∀ st ∈ (queryAll fl timebuf table parallel
              [(d0.init row, start, Probe.packet stop now)]).2,
      "first_ts" ∉ st.assigned := by
  have hn : ((d0.init row).query start (Probe.packet stop now)).ntimes
      = row.num_queries + 1 := by
    have h1 : row.num_queries % U32 = row.num_queries := Nat.mod_eq_of_lt (by omega)
    simp only [DomainNameQuery.query, DomainNameQuery.record, DomainNameQuery.init, h1]
    exact Nat.mod_eq_of_lt hhi
  have ht : ((d0.init row).query start (Probe.packet stop now)).last_time_ = now := rfl
  have hd : ((d0.init row).query start (Probe.packet stop now)).domain_ = d0.domain_ := rfl
  have hst := statement_cases fl timebuf table
    ((d0.init row).query start (Probe.packet stop now))
  rw [hn, ht, hd] at hst
  have hst2 := hst.resolve_left (fun h => by omega) |>.resolve_left (fun h => by omega)
  refine ⟨hn, ht, ?_, ?_⟩
  · rw [queryAll_split, queryAll_single fl timebuf table parallel _ start _ hpar, hst2.2]
    simp
  · rw [queryAll_single fl timebuf table parallel _ start _ hpar, hst2.2]
    intro st hst3
    simp only [Option.toList, List.mem_singleton] at hst3
    subst hst3
    simp [Stmt.assigned]

/-- C5 as the code has it, at `example.com` seeded with `{sum = 10, sumsq = 100, count = 1}`
and answered after 20 ms. -/
theorem queryAll_updates_seeded_witness :
    (0 : Int) < 10 ∧ 1 ≤ (Row.mk 10 100 1).num_queries ∧
    (Row.mk 10 100 1).num_queries + 1 < U32 ∧
    queryAll FExpr.ops seconds_text "queries_result" 10
        [((DomainNameQuery.new "example.com").init ⟨10, 100, 1⟩, ⟨1, 0⟩,
          Probe.packet ⟨1, 20000000⟩ 101)]
      = ([{ domain_ := "example.com", sum_ := 30, sumsq_ := 500, ntimes := 2,
            last_time_ := 101 }],
         [Stmt.update "queries_result"
            [("avg_in_ms", SqlValue.float (FExpr.div (FExpr.ofU32 30) (FExpr.ofU32 2))),
             ("stddev_in_ms", SqlValue.float (FExpr.sqrtf (FExpr.sub
                (FExpr.div (FExpr.ofU64 500) (FExpr.ofU32 2))
                (FExpr.mul (FExpr.div (FExpr.ofU32 30) (FExpr.ofU32 2))
                  (FExpr.div (FExpr.ofU32 30) (FExpr.ofU32 2)))))),
             ("sum_in_ms", SqlValue.u32 30),
             ("sum_sqrt_in_ms", SqlValue.u64 500),
             ("num_queries", SqlValue.u32 2),
             ("last_ts", SqlValue.quoted (seconds_text 101))]
            (SqlValue.quoted "example.com")]) :=
  ⟨by decide, by decide, by decide,
    (queryAll_updates_seeded FExpr.ops seconds_text "queries_result" 10 [] []
      (DomainNameQuery.new "example.com") ⟨10, 100, 1⟩ ⟨1, 0⟩ ⟨1, 20000000⟩ 101
      (by decide) (by decide) (by decide)).2.2.1⟩

end MysqlQuery

/-! ## The count across repeated calls -/

namespace DomainNameQuery

theorem queries_nil (d : DomainNameQuery) : d.queries [] = d := rfl

theorem queries_cons (d : DomainNameQuery) (c : timespec × Probe)
    (calls : List (timespec × Probe)) :
    d.queries (c :: calls) = (d.query c.1 c.2).queries calls := rfl

theorem queries_append (d : DomainNameQuery) (a b : List (timespec × Probe)) :
    d.queries (a ++ b) = (d.queries a).queries b := by
  unfold queries
  rw [List.foldl_append]

/-- One call moves the count by one modulo `2^32` if the probe succeeded and not at all
otherwise. -/
theorem query_ntimes (d : DomainNameQuery) (start : timespec) (p : Probe) :
    (d.query start p).ntimes = if succeeded p = true then (d.ntimes + 1) % U32 else d.ntimes := by
  cases p <;> rfl

/-- The count after a sequence of calls is the count before plus the number of successful
probes, modulo `2^32`. -/
theorem queries_ntimes (d : DomainNameQuery) (calls : List (timespec × Probe))
    (hd : d.ntimes < U32) :
    (d.queries calls).ntimes
      = (d.ntimes + calls.countP (fun c => succeeded c.2)) % U32 := by
  induction calls generalizing d with
  | nil => simp [queries_nil, Nat.mod_eq_of_lt hd]
  | cons c rest ih =>
    rw [queries_cons]
    have hlt : (d.query c.1 c.2).ntimes < U32 := by
      rw [query_ntimes]
      split
      · exact Nat.mod_lt _ (by unfold U32; omega)
      · exact hd
    rw [ih _ hlt, query_ntimes, List.countP_cons]
    cases hs : succeeded c.2
    · simp
    · simp only [if_true]
      rw [Nat.mod_add_mod]
      congr 1
      omega

theorem countP_replicate_succeeded (n : Nat) (start stop : timespec) (now : Int) :
    (List.replicate n (start, Probe.packet stop now)).countP (fun c => succeeded c.2) = n := by
  induction n with
  | zero => rfl
  | succ n ih =>
    rw [List.replicate_succ, List.countP_cons, ih]
    rfl

/-- C7, evaluated at `2^32` successful calls in a row on a fresh object: after `2^32 - 1` of
them the count is `4294967295`, after the next one it is `0`, which is less than before and
is not the number `4294967296` of successful outcomes. -/
theorem count_wraps_at_two_pow_32 :
    ((new "example.com").queries
        (List.replicate 4294967295 (⟨0, 0⟩, Probe.packet ⟨0, 0⟩ 0))).ntimes = 4294967295 ∧
    ((new "example.com").queries
        (List.replicate 4294967295 (⟨0, 0⟩, Probe.packet ⟨0, 0⟩ 0)
          ++ [(⟨0, 0⟩, Probe.packet ⟨0, 0⟩ 0)])).ntimes = 0 ∧
    List.countP (fun c : timespec × Probe => succeeded c.2)
        (List.replicate 4294967295 (⟨0, 0⟩, Probe.packet ⟨0, 0⟩ 0)
          ++ [(⟨0, 0⟩, Probe.packet ⟨0, 0⟩ 0)])
      = 4294967296 := by
  have h0 : (new "example.com").ntimes < U32 := by decide
  have hc := countP_replicate_succeeded 4294967295 ⟨0, 0⟩ ⟨0, 0⟩ 0
  refine ⟨?_, ?_, ?_⟩
  · rw [queries_ntimes _ _ h0, hc]
    rfl
  · rw [queries_ntimes _ _ h0, List.countP_append, hc]
    rfl
  · rw [List.countP_append, hc]
    rfl

/-- C7 as the code has it: calls of `query` are folded one after another into a fresh object;
if fewer than `2^32` of the outcomes are successes, then the count after each call is at
least the count before it, and the final count is the number of successful outcomes. -/
theorem count_of_successes (name : String) (calls : List (timespec × Probe))
    (hbound : calls.countP (fun c => succeeded c.2) < U32) :
    (∀ k : Nat, ((new name).queries (calls.take k)).ntimes
        ≤ ((new name).queries (calls.take (k + 1))).ntimes) ∧
    ((new name).queries calls).ntimes = calls.countP (fun c => succeeded c.2) := by
  have h0 : (new name).ntimes < U32 := by
    show 0 < U32
    decide
  have hz : (new name).ntimes = 0 := rfl
  have hle : ∀ k : Nat, (calls.take k).countP (fun c => succeeded c.2)
      ≤ calls.countP (fun c => succeeded c.2) := fun k =>
    (List.take_sublist k calls).countP_le _
  have hval : ∀ k : Nat, ((new name).queries (calls.take k)).ntimes
      = (calls.take k).countP (fun c => succeeded c.2) := by
    intro k
    rw [queries_ntimes _ _ h0, hz, Nat.zero_add]
    exact Nat.mod_eq_of_lt (lt_of_le_of_lt (hle k) hbound)
  refine ⟨?_, ?_⟩
  · intro k
    rw [hval, hval]
    exact (List.take_sublist_take_left calls (Nat.le_succ k)).countP_le _
  · rw [queries_ntimes _ _ h0, hz, Nat.zero_add]
    exact Nat.mod_eq_of_lt hbound

/-- C7 as the code has it, at the outcomes 10 ms, failure, 20 ms. -/
theorem count_of_successes_witness :
    [((⟨0, 0⟩ : timespec), Probe.packet ⟨0, 10000000⟩ 100), (⟨1, 0⟩, Probe.no_packet),
        (⟨2, 0⟩, Probe.packet ⟨2, 20000000⟩ 102)].countP (fun c => succeeded c.2) < U32 ∧
    ((new "example.com").queries
        [(⟨0, 0⟩, Probe.packet ⟨0, 10000000⟩ 100), (⟨1, 0⟩, Probe.no_packet),
          (⟨2, 0⟩, Probe.packet ⟨2, 20000000⟩ 102)]).ntimes = 2 :=
  ⟨by decide,
    (count_of_successes "example.com"
      [(⟨0, 0⟩, Probe.packet ⟨0, 10000000⟩ 100), (⟨1, 0⟩, Probe.no_packet),
        (⟨2, 0⟩, Probe.packet ⟨2, 20000000⟩ 102)] (by decide)).2⟩

/-! ## The Cauchy–Schwarz bound -/

/-- C8, evaluated at a fresh object and one successful probe of 65536 ms: the state reached
has `sum_ = 65536`, `sumsq_ = 0`, `ntimes = 1`, so `ntimes > 0` and
`ntimes * sumsq_ < sum_ ^ 2`: the quantity under the square root of `stddev()` is
negative. -/
theorem cauchy_schwarz_at_65536 :
    (new "example.com").queries [(⟨0, 0⟩, Probe.packet ⟨65, 536000000⟩ 1000)]
      = { domain_ := "example.com", sum_ := 65536, sumsq_ := 0, ntimes := 1,
          last_time_ := 1000 } ∧
    0 < ((new "example.com").queries
          [(⟨0, 0⟩, Probe.packet ⟨65, 536000000⟩ 1000)]).ntimes ∧
    ((new "example.com").queries [(⟨0, 0⟩, Probe.packet ⟨65, 536000000⟩ 1000)]).ntimes
        * ((new "example.com").queries
            [(⟨0, 0⟩, Probe.packet ⟨65, 536000000⟩ 1000)]).sumsq_
      < ((new "example.com").queries
          [(⟨0, 0⟩, Probe.packet ⟨65, 536000000⟩ 1000)]).sum_ ^ 2 := by
  have h : (new "example.com").queries [(⟨0, 0⟩, Probe.packet ⟨65, 536000000⟩ 1000)]
      = { domain_ := "example.com", sum_ := 65536, sumsq_ := 0, ntimes := 1,
          last_time_ := 1000 } := by
    decide
  rw [h]
  exact ⟨rfl, by decide, by decide⟩

/-- The arithmetic step of the bound: adding one sample keeps `S² ≤ n·Q`. -/
theorem sq_sum_step (n S Q m : Nat) (h : S ^ 2 ≤ n * Q) :
    (S + m) ^ 2 ≤ (n + 1) * (Q + m ^ 2) := by
  rcases Nat.eq_zero_or_pos n with hn | hn
  · subst hn
    have hS : S = 0 := by
      have : S ^ 2 = 0 := by omega
      exact pow_eq_zero_iff (by norm_num) |>.mp this
    subst hS
    nlinarith
  · have hkey : 2 * S * m ≤ Q + n * m ^ 2 := by
      by_contra hc
      push_neg at hc
      have h1 : n * (Q + n * m ^ 2) < n * (2 * S * m) := Nat.mul_lt_mul_of_pos_left hc hn
      zify at h h1
      nlinarith [sq_nonneg ((S : Int) - n * m)]
    nlinarith

/-- The part of the state the bound is about: the bound itself, and a bound on `sumsq_`
that keeps the 64-bit field from wrapping. -/
theorem record_bound (d : DomainNameQuery) (ms : Nat) (now : Int) (hms : ms < 65536)
    (hn : d.ntimes + 1 < U32) (hcs : d.sum_ ^ 2 ≤ d.ntimes * d.sumsq_)
    (hq : d.sumsq_ ≤ d.ntimes * 65535 ^ 2) :
    (d.record ms now).sum_ ^ 2 ≤ (d.record ms now).ntimes * (d.record ms now).sumsq_ ∧
    (d.record ms now).sumsq_ ≤ (d.record ms now).ntimes * 65535 ^ 2 := by
  have hsq : ms ^ 2 ≤ 65535 ^ 2 := Nat.pow_le_pow_left (by omega) 2
  have hn1 : (d.ntimes + 1) % U32 = d.ntimes + 1 := Nat.mod_eq_of_lt hn
  have hqb : d.sumsq_ + ms ^ 2 ≤ (d.ntimes + 1) * 65535 ^ 2 := by nlinarith
  have hq1 : (d.sumsq_ + ms ^ 2) % U64 = d.sumsq_ + ms ^ 2 := by
    apply Nat.mod_eq_of_lt
    have : (d.ntimes + 1) * 65535 ^ 2 < U64 := by
      unfold U32 at hn
      unfold U64
      nlinarith
    omega
  rw [record_sumsq_of_lt d ms now hms, hq1]
  simp only [record, hn1]
  refine ⟨?_, hqb⟩
  calc ((d.sum_ + ms) % U32) ^ 2 ≤ (d.sum_ + ms) ^ 2 :=
        Nat.pow_le_pow_left (Nat.mod_le _ _) 2
    _ ≤ (d.ntimes + 1) * (d.sumsq_ + ms ^ 2) := sq_sum_step _ _ _ _ hcs

/-- With every measured latency below `2^16` ms and fewer than `2^32` successful probes, every
state reached from a fresh object satisfies `sum_² ≤ ntimes · sumsq_`. -/
theorem cauchy_schwarz_of_small (d : DomainNameQuery) (calls : List (timespec × Probe))
    (hsmall : ∀ c ∈ calls, ∀ stop now, c.2 = Probe.packet stop now →
      elapsed_ms c.1 stop < 65536)
    (hcount : d.ntimes + calls.countP (fun c => succeeded c.2) < U32)
    (hcs : d.sum_ ^ 2 ≤ d.ntimes * d.sumsq_) (hq : d.sumsq_ ≤ d.ntimes * 65535 ^ 2) :
    (d.queries calls).sum_ ^ 2 ≤ (d.queries calls).ntimes * (d.queries calls).sumsq_ := by
  suffices hboth : (d.queries calls).sum_ ^ 2
        ≤ (d.queries calls).ntimes * (d.queries calls).sumsq_ ∧
      (d.queries calls).sumsq_ ≤ (d.queries calls).ntimes * 65535 ^ 2 from hboth.1
  induction calls generalizing d with
  | nil => exact ⟨hcs, hq⟩
  | cons c rest ih =>
    rw [queries_cons]
    rw [List.countP_cons] at hcount
    have hrest : ∀ c' ∈ rest, ∀ stop now, c'.2 = Probe.packet stop now →
        elapsed_ms c'.1 stop < 65536 := fun c' hc' => hsmall c' (List.mem_cons_of_mem _ hc')
    obtain ⟨start, p⟩ := c
    cases p with
    | malformed => exact ih d hrest (by simpa [succeeded] using hcount) hcs hq
    | no_packet => exact ih d hrest (by simpa [succeeded] using hcount) hcs hq
    | packet stop now =>
      have hms := hsmall (start, Probe.packet stop now) (List.mem_cons_self _ _) stop now rfl
      have hcount2 : d.ntimes + (rest.countP (fun c => succeeded c.2) + 1) < U32 := hcount
      have hn : d.ntimes + 1 < U32 := by omega
      obtain ⟨h1, h2⟩ := record_bound d (elapsed_ms start stop) now hms hn hcs hq
      have hnt : (d.record (elapsed_ms start stop) now).ntimes = d.ntimes + 1 :=
        Nat.mod_eq_of_lt hn
      exact ih (d.record (elapsed_ms start stop) now) hrest (by rw [hnt]; omega) h1 h2

end DomainNameQuery

end DnsApp
